import Mathlib

/-!
Verification development for the incident-report form builder: a shallow
embedding of the markdown-to-docx compiler (`src/lib/docx-generator.ts`),
its inline run parser, the attachment and impact-line rendering, the date
formatters, and the rich-text editor's external/local sync protocol
(`RichTextArea`). Strings are modelled as `List Char`; JavaScript string
helpers (`trim`, `split('\n')`, `startsWith`) are modelled over the ASCII
whitespace subset. The regex matchers of `parseInlineMarkdown` and the
line classifier of `parseMarkdownToParagraphs` are translated to explicit
leftmost-match scanners with the same backtracking behaviour.
-/

namespace IncidentDocx

/-- ASCII whitespace characters recognised by JavaScript's `trim` and `\s`
    (space, tab, newline, carriage return, vertical tab, form feed);
    the Unicode space classes are not modelled. -/
def isJsSpace (c : Char) : Bool :=
  c = ' ' || c = '\t' || c = '\n' || c = '\r' || c = Char.ofNat 11 || c = Char.ofNat 12

/-- Drop leading JS whitespace (left half of `String.prototype.trim`). -/
def trimL (l : List Char) : List Char := l.dropWhile isJsSpace

/-- Drop trailing JS whitespace (right half of `String.prototype.trim`). -/
def trimR (l : List Char) : List Char := (trimL l.reverse).reverse

/-- Model of `String.prototype.trim`. -/
def trim (l : List Char) : List Char := trimL (trimR l)

/-- Model of `text.split('\n')`: always returns at least one (possibly
    empty) line; a trailing newline yields a final empty line. -/
def splitOnNl : List Char → List (List Char)
  | [] => [[]]
  | c :: cs =>
    if c = '\n' then [] :: splitOnNl cs
    else
      match splitOnNl cs with
      | h :: t => (c :: h) :: t
      | [] => [[c]]

/-- Model of `list.startsWith(pat)` on character lists. -/
def startsWithL : List Char → List Char → Bool
  | [], _ => true
  | _ :: _, [] => false
  | p :: ps, c :: cs => if p = c then startsWithL ps cs else false

/-- A docx `TextRun` as constructed by the generator: text, bold and italic
    flags, hex colour, and the optional half-point size (the generator omits
    `size` on ordered-list and lettered-list marker runs). -/
structure TextRun where
  text : List Char
  bold : Bool
  italics : Bool
  color : String
  size : Option Nat
  deriving DecidableEq, Repr

/-- A docx `Paragraph` as constructed by `parseMarkdownToParagraphs` and the
    attachment/impact builders: its child runs, whether it carries a bullet,
    its left indent in twips, and its before/after spacing. -/
structure Paragraph where
  children : List TextRun
  bullet : Bool
  indentLeft : Option Nat
  spacingBefore : Option Nat
  spacingAfter : Option Nat
  deriving DecidableEq, Repr

/-- `convertInchesToTwip` from the docx library, taking hundredths of an
    inch (so `25` stands for the source's `0.25`). -/
def convertInchesToTwipH (h : Nat) : Nat := h * 1440 / 100

/-- A plain content run (`size: 20, color: '000000'`). -/
def plainRun (t : List Char) : TextRun := ⟨t, false, false, "000000", some 20⟩

/-- A bold or italic content run produced by the inline parser. -/
def fmtRun (isBold : Bool) (t : List Char) : TextRun :=
  if isBold then ⟨t, true, false, "000000", some 20⟩
  else ⟨t, false, true, "000000", some 20⟩

/-! ### Inline run parser (`parseInlineMarkdown`)

The four regexes are modelled as leftmost-match scanners.
`findBold d` models `/^(.*?)dd(.+?)dd/` (with `d` the delimiter `*` or `_`):
the leftmost opening `dd` for which a closing `dd` exists after at least one
(non-newline) inner character, the inner text being lazily minimal.
`findItal d` models `/^(.*?)(?<!d)d([^d]+)d(?!d)/`: the leftmost single `d`
not preceded by `d`, whose inner text is a nonempty run of non-`d`
characters, closed by a `d` not followed by another `d`. -/

/-- Scan for the earliest closing double delimiter; the characters before
    it (matched by the lazy `(.+?)`, hence non-newline) become the tail of
    the inner text. -/
def findDD (d : Char) : List Char → Option (List Char × List Char)
  | c1 :: c2 :: rest =>
    if c1 = d ∧ c2 = d then some ([], rest)
    else if c1 = '\n' then none
    else (findDD d (c2 :: rest)).map (fun p => (c1 :: p.1, p.2))
  | _ => none

/-- Try to match `dd(.+?)dd` at the head of the list. -/
def matchBoldAt (d : Char) : List Char → Option (List Char × List Char)
  | c1 :: c2 :: r0 :: rtail =>
    if c1 = d ∧ c2 = d ∧ r0 ≠ '\n' then
      (findDD d rtail).map (fun p => (r0 :: p.1, p.2))
    else none
  | _ => none

/-- Leftmost match of `^(.*?)dd(.+?)dd`: returns (before, inner, rest).
    The lazy prefix `(.*?)` cannot cross a newline. -/
def findBold (d : Char) : List Char → Option (List Char × List Char × List Char)
  | [] => none
  | c :: cs =>
    match matchBoldAt d (c :: cs) with
    | some (inner, rest) => some ([], inner, rest)
    | none =>
      if c = '\n' then none
      else (findBold d cs).map (fun t => (c :: t.1, t.2.1, t.2.2))

/-- Scan a run of non-`d` characters up to the next `d` (the closing
    delimiter); models the lazy `([^d]+)` followed by `d`. -/
def italScan (d : Char) : List Char → Option (List Char × List Char)
  | [] => none
  | c :: cs =>
    if c = d then some ([], cs)
    else (italScan d cs).map (fun p => (c :: p.1, p.2))

/-- Try to match `(?<!d)d([^d]+)d(?!d)` at the head of the list, given the
    character just before the head (for the lookbehind). -/
def matchItalAt (d : Char) (prev : Option Char) : List Char → Option (List Char × List Char)
  | c :: rest =>
    if c = d ∧ prev ≠ some d then
      match italScan d rest with
      | some (inner, rest2) =>
        if inner ≠ [] ∧ rest2.head? ≠ some d then some (inner, rest2) else none
      | none => none
    else none
  | [] => none

/-- Leftmost match of `^(.*?)(?<!d)d([^d]+)d(?!d)`: (before, inner, rest). -/
def findItal (d : Char) : Option Char → List Char → Option (List Char × List Char × List Char)
  | _, [] => none
  | prev, c :: cs =>
    match matchItalAt d prev (c :: cs) with
    | some (inner, rest) => some ([], inner, rest)
    | none =>
      if c = '\n' then none
      else (findItal d (some c) cs).map (fun t => (c :: t.1, t.2.1, t.2.2))

/-- A candidate span: bold flag, text before the span, inner text, rest. -/
abbrev Cand := Bool × List Char × List Char × List Char

/-- Keep the candidate with the strictly smaller before-text (the source
    stable-sorts candidates by index and takes the first, so ties keep the
    earlier candidate in the fixed order bold-`*`, bold-`_`, italic-`*`,
    italic-`_`). -/
def keepBetter (best c : Option Cand) : Option Cand :=
  match best, c with
  | none, c => c
  | some b, none => some b
  | some b, some c => if c.2.1.length < b.2.1.length then some c else some b

/-- Tag a matcher result with its bold flag. -/
def tagCand (isBold : Bool) (o : Option (List Char × List Char × List Char)) : Option Cand :=
  o.map (fun t => (isBold, t.1, t.2.1, t.2.2))

/-- One iteration of `parseInlineMarkdown`'s while loop: compute the four
    candidates and select the first one in index order. -/
def inlineStep (rem : List Char) : Option Cand :=
  keepBetter
    (keepBetter
      (keepBetter (tagCand true (findBold '*' rem)) (tagCand true (findBold '_' rem)))
      (tagCand false (findItal '*' none rem)))
    (tagCand false (findItal '_' none rem))

/-- The while loop of `parseInlineMarkdown`, with fuel (each successful step
    consumes at least three characters, so `rem.length` fuel suffices). -/
def parseInlineGo : Nat → List Char → List TextRun
  | _, [] => []
  | 0, rem => [plainRun rem]
  | Nat.succ fuel, rem =>
    match inlineStep rem with
    | some (isBold, before, inner, rest) =>
      (if before = [] then [] else [plainRun before]) ++ fmtRun isBold inner :: parseInlineGo fuel rest
    | none => [plainRun rem]

/-- `parseInlineMarkdown`: split one line into styled runs; if no run was
    produced (only possible for the empty line), fall back to a single run
    carrying the original text. -/
def parseInlineMarkdown (text : List Char) : List TextRun :=
  let runs := parseInlineGo text.length text
  if runs = [] then [plainRun text] else runs

/-! ### Block classifier and document compiler (`parseMarkdownToParagraphs`) -/

/-- Model of the match `trimmedLine.match(/^(\d+)\.\s+(.*)$/)`: a nonempty
    digit run, a dot, at least one whitespace character, then the content
    (everything after the maximal whitespace run). Returns the captured
    digits and the content. -/
def numberedMatch (t : List Char) : Option (List Char × List Char) :=
  let ds := t.takeWhile Char.isDigit
  if ds = [] then none
  else
    match t.drop ds.length with
    | '.' :: rest =>
      let sp := rest.takeWhile isJsSpace
      if sp = [] then none else some (ds, rest.drop sp.length)
    | _ => none

/-- Model of the match `trimmedLine.match(/^([a-z])[.)]\s+(.*)$/i)`:
    a single ASCII letter, `.` or `)`, at least one whitespace character,
    then the content. Returns the letter (as matched) and the content. -/
def subItemMatch (t : List Char) : Option (Char × List Char) :=
  match t with
  | c :: d :: rest =>
    if c.isAlpha ∧ (d = '.' ∨ d = ')') then
      let sp := rest.takeWhile isJsSpace
      if sp = [] then none else some (c, rest.drop sp.length)
    else none
  | _ => none

/-- The blank-line paragraph (`spacing: { after: 100 }`, no children). -/
def blankPara : Paragraph := ⟨[], false, none, none, some 100⟩

/-- Heading paragraph of a given run size and before/after spacing; the
    heading text is a single bold black run and is not inline-parsed. -/
def headingPara (t : List Char) (size before after : Nat) : Paragraph :=
  ⟨[⟨t, true, false, "000000", some size⟩], false, none, some before, some after⟩

/-- Ordered-list marker run `` `${currentListNumber}. ` `` (bold, black,
    no explicit size). -/
def ordMarkerRun (n : Nat) : TextRun :=
  ⟨(Nat.repr n).data ++ ". ".data, true, false, "000000", none⟩

/-- Lettered sub-item marker run `` `${letter}. ` `` (black, not bold). -/
def letterMarkerRun (c : Char) : TextRun :=
  ⟨[c, '.', ' '], false, false, "000000", none⟩

/-- Classify one already-trimmed line and render its paragraph, following
    the source's if-chain: blank, `### `, `## `, `# `, bullet, numbered,
    lettered sub-item, then plain paragraph. Returns the paragraph and the
    updated ordered-list counter (the counter is left unchanged by blank
    lines, headings and lettered sub-items, reset to 0 by bullets and
    plain paragraphs, and incremented by numbered lines). -/
def lineStepT (counter : Nat) (t : List Char) : Paragraph × Nat :=
  if t = [] then (blankPara, counter)
  else if startsWithL "### ".data t then (headingPara (t.drop 4) 22 150 80, counter)
  else if startsWithL "## ".data t then (headingPara (t.drop 3) 24 200 100, counter)
  else if startsWithL "# ".data t then (headingPara (t.drop 2) 28 250 120, counter)
  else if startsWithL "- ".data t ∨ startsWithL "* ".data t then
    (⟨parseInlineMarkdown (t.drop 2), true, none, none, some 60⟩, 0)
  else
    match numberedMatch t with
    | some (_, content) =>
      (⟨ordMarkerRun (counter + 1) :: parseInlineMarkdown content, false,
         some (convertInchesToTwipH 25), none, some 60⟩, counter + 1)
    | none =>
      match subItemMatch t with
      | some (letter, content) =>
        (⟨letterMarkerRun letter.toLower :: parseInlineMarkdown content, false,
           some (convertInchesToTwipH 50), none, some 60⟩, counter)
      | none => (⟨parseInlineMarkdown t, false, none, none, some 80⟩, 0)

/-- One iteration of the `lines.forEach` body: trim the raw line, then
    classify and render it. -/
def lineStep (counter : Nat) (line : List Char) : Paragraph × Nat :=
  lineStepT counter (trim line)

/-- The forEach loop threading the ordered-list counter over the lines. -/
def compileLines : Nat → List (List Char) → List Paragraph
  | _, [] => []
  | counter, l :: ls =>
    let s := lineStep counter l
    s.1 :: compileLines s.2 ls

/-- The placeholder paragraph rendered for empty narrative input
    (`'No content provided'`, italic, muted `9ca3af`, size 20). -/
def noContentPara : Paragraph :=
  ⟨[⟨"No content provided".data, false, true, "9ca3af", some 20⟩], false, none, none, none⟩

/-- `parseMarkdownToParagraphs`: the markdown-to-paragraphs compiler.
    Empty or whitespace-only input yields the single placeholder paragraph;
    otherwise each line of the input yields exactly one paragraph. -/
def parseMarkdownToParagraphs (text : List Char) : List Paragraph :=
  if trim text = [] then [noContentPara]
  else compileLines 0 (splitOnNl text)

/-! ### Attachment box (`generateIncidentReportDocx`, attachmentParagraphs) -/

/-- An attachment record (`{ id, nameOrLink, description }`). -/
structure Attachment where
  id : List Char
  nameOrLink : List Char
  description : List Char
  deriving DecidableEq, Repr

/-- The paragraph rendered for the attachment at 0-based index `idx`:
    a bold `"<idx+1>. "` marker, the bold name (or `"Attachment <idx+1>"`
    when the name is empty), and — only when the description is nonempty —
    a `" — <description>"` run. -/
def attPara (idx : Nat) (att : Attachment) : Paragraph :=
  ⟨[⟨(Nat.repr (idx + 1)).data ++ ". ".data, true, false, "000000", some 20⟩,
    ⟨(if att.nameOrLink = [] then "Attachment ".data ++ (Nat.repr (idx + 1)).data
      else att.nameOrLink), true, false, "000000", some 20⟩]
    ++ (if att.description = [] then []
        else [⟨" — ".data ++ att.description, false, false, "000000", some 20⟩]),
   false, some (convertInchesToTwipH 15), none, some 60⟩

/-- `atts.map((att, idx) => ...)` with an explicit running index. -/
def attParasFrom : Nat → List Attachment → List Paragraph
  | _, [] => []
  | idx, a :: as => attPara idx a :: attParasFrom (idx + 1) as

/-- The `'No attachments'` placeholder paragraph (italic, muted). -/
def noAttachmentsPara : Paragraph :=
  ⟨[⟨"No attachments".data, false, true, "9ca3af", some 20⟩], false, none, none, none⟩

/-- The Attachments box contents: one numbered paragraph per attachment,
    or the placeholder when the list is empty. -/
def attachmentParagraphs (atts : List Attachment) : List Paragraph :=
  if atts.length > 0 then attParasFrom 0 atts else [noAttachmentsPara]

/-- Concatenated text of a paragraph's runs (the rendered line). -/
def paraText (p : Paragraph) : List Char :=
  (p.children.map TextRun.text).flatten

/-! ### Impact box first line (`generateIncidentReportDocx`, impactList) -/

/-- The five impact categories offered by the form
    (`IMPACT_CATEGORIES` in the report-form component). -/
def IMPACT_CATEGORIES : List (List Char) :=
  ["Client".data, "GoTeam".data, "Peers".data, "Management".data, "Others".data]

/-- `cat === 'Others' && impactOthersSpecify ? `Others (${...})` : cat`. -/
def expandCat (others cat : List Char) : List Char :=
  if cat = "Others".data ∧ others ≠ [] then "Others (".data ++ others ++ ")".data
  else cat

/-- `Array.prototype.join(', ')`. -/
def joinComma : List (List Char) → List Char
  | [] => []
  | [x] => x
  | x :: y :: xs => x ++ ", ".data ++ joinComma (y :: xs)

/-- The comma-joined impact category list with `Others` expansion. -/
def impactList (cats : List (List Char)) (others : List Char) : List Char :=
  joinComma (cats.map (expandCat others))

/-- The two runs of the Impact box's first line: the bold
    `"Impacted Parties: "` label, then the joined list — or, when that
    list is the empty string, the italic muted `"None selected"`. -/
def impactLineRuns (cats : List (List Char)) (others : List Char) : List TextRun :=
  [⟨"Impacted Parties: ".data, true, false, "000000", some 20⟩,
   ⟨(if impactList cats others = [] then "None selected".data else impactList cats others),
    false, (impactList cats others).isEmpty,
    (if impactList cats others = [] then "9ca3af" else "000000"), some 20⟩]

/-! ### Date formatting (`formatDate`, `formatDateTime`)

The source delegates to `new Date(...)` plus `toLocaleDateString` /
`toLocaleString` with the `en-US` locale. The model fixes the runtime
environment: the clock timezone is UTC (so a date-only string, which
JavaScript parses as UTC midnight, renders on the same calendar day) and
the locale data is current CLDR `en-US`, whose combined date-time pattern
joins the date and the time with `" at "`. Parsing is modelled for the
exact shapes produced by the form's date / datetime-local inputs
(`YYYY-MM-DD` and `YYYY-MM-DDTHH:MM`); other nonempty inputs model
JavaScript's invalid-date result. -/

/-- Numeric value of a decimal digit character. -/
def digitVal (c : Char) : Nat := c.toNat - '0'.toNat

/-- Parse `YYYY-MM-DD` (month 1–12, day 1–31, as the ISO string parser
    accepts; calendar-level day validation is not modelled). -/
def parseIsoDate (s : List Char) : Option (Nat × Nat × Nat) :=
  match s with
  | [a, b, c, d, h1, e, f, h2, g, i] =>
    if a.isDigit ∧ b.isDigit ∧ c.isDigit ∧ d.isDigit ∧ h1 = '-' ∧
       e.isDigit ∧ f.isDigit ∧ h2 = '-' ∧ g.isDigit ∧ i.isDigit then
      if 1 ≤ 10 * digitVal e + digitVal f ∧ 10 * digitVal e + digitVal f ≤ 12 ∧
         1 ≤ 10 * digitVal g + digitVal i ∧ 10 * digitVal g + digitVal i ≤ 31 then
        some (1000 * digitVal a + 100 * digitVal b + 10 * digitVal c + digitVal d,
          10 * digitVal e + digitVal f, 10 * digitVal g + digitVal i)
      else none
    else none
  | _ => none

/-- Parse `YYYY-MM-DDTHH:MM` (the `datetime-local` input format). -/
def parseIsoDateTime (s : List Char) : Option (Nat × Nat × Nat × Nat × Nat) :=
  match parseIsoDate (s.take 10), s.drop 10 with
  | some (y, m, d), ['T', p, q, c, r, t] =>
    if p.isDigit ∧ q.isDigit ∧ c = ':' ∧ r.isDigit ∧ t.isDigit then
      if 10 * digitVal p + digitVal q ≤ 23 ∧ 10 * digitVal r + digitVal t ≤ 59 then
        some (y, m, d, 10 * digitVal p + digitVal q, 10 * digitVal r + digitVal t)
      else none
    else none
  | _, _ => none

/-- English month name (`month: 'long'`). -/
def monthName : Nat → List Char
  | 1 => "January".data
  | 2 => "February".data
  | 3 => "March".data
  | 4 => "April".data
  | 5 => "May".data
  | 6 => "June".data
  | 7 => "July".data
  | 8 => "August".data
  | 9 => "September".data
  | 10 => "October".data
  | 11 => "November".data
  | 12 => "December".data
  | _ => []

/-- `"<Month> <Day>, <Year>"` with numeric (unpadded) day and year. -/
def renderDateYMD (y m d : Nat) : List Char :=
  monthName m ++ " ".data ++ (Nat.repr d).data ++ ", ".data ++ (Nat.repr y).data

/-- `formatDate`: `'Not specified'` for the empty string, otherwise the
    `en-US` long-month rendering of the parsed date. -/
def formatDate (s : List Char) : List Char :=
  if s = [] then "Not specified".data
  else
    match parseIsoDate s with
    | some (y, m, d) => renderDateYMD y m d
    | none => "Invalid Date".data

/-- Two-digit minute (`minute: '2-digit'`). -/
def pad2 (n : Nat) : List Char :=
  if n < 10 then '0' :: (Nat.repr n).data else (Nat.repr n).data

/-- `"<H>:<MM> <AM|PM>"` with 12-hour unpadded hour. -/
def renderTime12 (h mi : Nat) : List Char :=
  (Nat.repr (if h % 12 = 0 then 12 else h % 12)).data ++ ":".data ++ pad2 mi
    ++ (if h < 12 then " AM".data else " PM".data)

/-- `formatDateTime`: `'Not specified'` for the empty string, otherwise the
    `en-US` rendering, which joins the date part and the 12-hour time part
    with `" at "` (current CLDR combination pattern; older ICU releases
    used `", "` — in either case a separator is present). -/
def formatDateTime (s : List Char) : List Char :=
  if s = [] then "Not specified".data
  else
    match parseIsoDateTime s with
    | some (y, m, d, h, mi) => renderDateYMD y m d ++ " at ".data ++ renderTime12 h mi
    | none => "Invalid Date".data

/-! ### Editor sync controller (`RichTextArea`)

The controller state is the pair of refs `isUpdatingFromProp` and
`lastExternalValue`. Three events drive it:

* `externalChange v` — the `useEffect` body: when the incoming prop value
  differs from `lastExternalValue.current`, set the suppression flag,
  record the value, load it into the editor without emitting an update,
  and schedule the flag reset (`setTimeout(..., 0)`);
* `localEdit m` — the `onUpdate` callback with the markdown conversion `m`
  of the editor content: dropped while the suppression flag is set,
  otherwise it records `m` and emits it through `onChange`;
* `timerFire` — the scheduled reset clearing the suppression flag.

The markdown⇄HTML converters and the editor's internal document are
abstracted away: a local edit event carries the markdown it would emit. -/

structure SyncState where
  isUpdatingFromProp : Bool
  lastExternalValue : String
  deriving DecidableEq, Repr

inductive SyncEv where
  | externalChange (v : String)
  | localEdit (m : String)
  | timerFire
  deriving DecidableEq, Repr

/-- One controller transition; returns the new state and the list of
    `onChange` notifications emitted by the transition. -/
def syncStep (s : SyncState) (e : SyncEv) : SyncState × List String :=
  match e with
  | .externalChange v =>
    if v ≠ s.lastExternalValue then
      ({ isUpdatingFromProp := true, lastExternalValue := v }, [])
    else (s, [])
  | .localEdit m =>
    if s.isUpdatingFromProp then (s, [])
    else ({ s with lastExternalValue := m }, [m])
  | .timerFire => ({ s with isUpdatingFromProp := false }, [])

/-! ### Supporting lemmas -/

/-- Accessor used to state ordered-list claims: the text of the first run
    of the `i`-th compiled paragraph (the list marker for list items). -/
def blockFirstText (ps : List Paragraph) (i : Nat) : Option (List Char) :=
  (ps[i]?).bind fun p => p.children.head?.map TextRun.text

theorem dropWhile_idem (p : Char → Bool) (l : List Char) :
    (l.dropWhile p).dropWhile p = l.dropWhile p := by
  induction l with
  | nil => rfl
  | cons c cs ih =>
    by_cases h : p c
    · simp [List.dropWhile_cons, h, ih]
    · simp [List.dropWhile_cons, h]

theorem trimL_idem (l : List Char) : trimL (trimL l) = trimL l :=
  dropWhile_idem isJsSpace l

theorem trimR_idem (l : List Char) : trimR (trimR l) = trimR l := by
  unfold trimR trimL
  rw [List.reverse_reverse, dropWhile_idem]

theorem trimL_cons_of_space {c : Char} (h : isJsSpace c = true) (cs : List Char) :
    trimL (c :: cs) = trimL cs := by
  simp [trimL, List.dropWhile_cons, h]

theorem trimL_cons_of_not_space {c : Char} (h : ¬ isJsSpace c = true) (cs : List Char) :
    trimL (c :: cs) = c :: cs := by
  simp [trimL, List.dropWhile_cons, h]

theorem trimR_cons_nil {c : Char} {cs : List Char} (he : trimL cs.reverse = []) :
    trimR (c :: cs) = trimL [c] := by
  unfold trimR trimL at *
  rw [List.reverse_cons, List.dropWhile_append, he]
  simp only [List.isEmpty_nil, if_true]
  by_cases hc : isJsSpace c <;> simp [List.dropWhile_cons, hc]

theorem trimR_cons_cons {c : Char} {cs : List Char} (he : ¬ trimL cs.reverse = []) :
    trimR (c :: cs) = c :: trimR cs := by
  unfold trimR trimL at *
  rw [List.reverse_cons, List.dropWhile_append]
  have he' : (List.dropWhile isJsSpace cs.reverse).isEmpty = false := by
    simpa [List.isEmpty_iff] using he
  simp [he']

theorem trimL_trimR_comm (l : List Char) : trimL (trimR l) = trimR (trimL l) := by
  induction l with
  | nil => rfl
  | cons c cs ih =>
    by_cases he : trimL cs.reverse = []
    · have hcs : trimR cs = [] := by
        unfold trimR
        rw [he]
        rfl
      by_cases h : isJsSpace c
      · have h2 : trimL [c] = [] := (trimL_cons_of_space h []).trans rfl
        rw [trimR_cons_nil he, trimL_cons_of_space h cs, ← ih, hcs, h2]
      · have h1 : trimL [c] = [c] := trimL_cons_of_not_space h []
        rw [trimL_cons_of_not_space h cs, trimR_cons_nil he, h1, h1]
    · by_cases h : isJsSpace c
      · rw [trimR_cons_cons he, trimL_cons_of_space h (trimR cs),
          trimL_cons_of_space h cs, ih]
      · rw [trimR_cons_cons he, trimL_cons_of_not_space h (trimR cs),
          trimL_cons_of_not_space h cs, trimR_cons_cons he]

theorem trim_idem (l : List Char) : trim (trim l) = trim l := by
  unfold trim
  rw [← trimL_trimR_comm (trimR l), trimR_idem, trimL_idem]

theorem compileLines_length (ls : List (List Char)) :
    ∀ counter, (compileLines counter ls).length = ls.length := by
  induction ls with
  | nil => intro c; rfl
  | cons l ls ih => intro c; simp [compileLines, ih]

theorem splitOnNl_ne_nil (l : List Char) : splitOnNl l ≠ [] := by
  cases l with
  | nil => simp [splitOnNl]
  | cons c cs =>
    unfold splitOnNl
    by_cases h : c = '\n'
    · simp [h]
    · simp only [h, if_false]
      cases splitOnNl cs <;> simp

/-! ### Claims -/

/-- C10: for every line of markdown input and every ordered-list counter
    value, the per-line compiler produces the same rendered paragraph and
    the same updated counter for the raw line as for its whitespace-trimmed
    form — the line is trimmed before classification, so surrounding
    whitespace never affects the block kind nor survives into the runs. -/
theorem c10_trim_before_classify (counter : Nat) (line : List Char) :
    lineStep counter line = lineStep counter (trim line) := by
  unfold lineStep
  rw [trim_idem]

/-- C2: for every input, `parseMarkdownToParagraphs` returns a non-empty
    paragraph list, and for empty or whitespace-only input it returns
    exactly the single italic, muted `'No content provided'` placeholder. -/
theorem c2_compile_nonempty (text : List Char) :
    parseMarkdownToParagraphs text ≠ [] ∧
    (trim text = [] → parseMarkdownToParagraphs text = [noContentPara]) := by
  constructor
  · unfold parseMarkdownToParagraphs
    by_cases h : trim text = []
    · simp [h]
    · simp only [h, if_false]
      intro hc
      have hl := congrArg List.length hc
      rw [compileLines_length] at hl
      exact splitOnNl_ne_nil text (List.length_eq_zero.mp hl)
  · intro h
    unfold parseMarkdownToParagraphs
    simp [h]

/-- C2 witness: the whitespace-only input `"   "` compiles to exactly the
    placeholder paragraph, and in particular to a non-empty list. -/
theorem c2_compile_nonempty_witness :
    parseMarkdownToParagraphs "   ".data = [noContentPara] ∧
    parseMarkdownToParagraphs "   ".data ≠ [] :=
  ⟨(c2_compile_nonempty "   ".data).2 (by decide),
   (c2_compile_nonempty "   ".data).1⟩

/-- C3: after an external value change (a value unequal to
    `lastExternalValue`) enters the suppression window, a local edit
    arriving before the window clears emits no `onChange` notification
    (neither did the external replacement itself), and the controller's
    `lastExternalValue` — also after the deferred flag reset — is the
    externally supplied value, not the dropped local edit. -/
theorem c3_sync_drops_suppressed_edit (s : SyncState) (v m : String)
    (hv : v ≠ s.lastExternalValue) (hm : m ≠ v) :
    (syncStep s (SyncEv.externalChange v)).2 = [] ∧
    (syncStep (syncStep s (SyncEv.externalChange v)).1 (SyncEv.localEdit m)).2 = [] ∧
    (syncStep (syncStep s (SyncEv.externalChange v)).1 (SyncEv.localEdit m)).1.lastExternalValue = v ∧
    (syncStep (syncStep s (SyncEv.externalChange v)).1 (SyncEv.localEdit m)).1.lastExternalValue ≠ m ∧
    (syncStep (syncStep (syncStep s (SyncEv.externalChange v)).1 (SyncEv.localEdit m)).1
        SyncEv.timerFire).1.lastExternalValue = v := by
  simp [syncStep, hv]
  exact fun he => hm he.symm

/-- C3 witness: the concrete run from `lastExternalValue = "old"` with the
    external value `"new"` and the dropped local edit `"typed"`. -/
theorem c3_sync_drops_suppressed_edit_witness :
    (syncStep ⟨false, "old"⟩ (SyncEv.externalChange "new")).2 = [] ∧
    (syncStep (syncStep ⟨false, "old"⟩ (SyncEv.externalChange "new")).1
        (SyncEv.localEdit "typed")).2 = [] ∧
    (syncStep (syncStep ⟨false, "old"⟩ (SyncEv.externalChange "new")).1
        (SyncEv.localEdit "typed")).1.lastExternalValue = "new" ∧
    (syncStep (syncStep ⟨false, "old"⟩ (SyncEv.externalChange "new")).1
        (SyncEv.localEdit "typed")).1.lastExternalValue ≠ "typed" ∧
    (syncStep (syncStep (syncStep ⟨false, "old"⟩ (SyncEv.externalChange "new")).1
        (SyncEv.localEdit "typed")).1 SyncEv.timerFire).1.lastExternalValue = "new" := by
  have h := c3_sync_drops_suppressed_edit ⟨false, "old"⟩ "new" "typed"
    (by decide) (by decide)
  exact ⟨h.1, h.2.1, h.2.2.1, h.2.2.2.1, h.2.2.2.2⟩

/-- C6 counterexample: on the empty line the inline run parser does not
    return an empty run sequence — the source's final fallback
    (`runs.length > 0 ? runs : [new TextRun({ text })]`) produces one run
    whose text is the empty string. -/
theorem c6_counterexample :
    parseInlineMarkdown ([] : List Char) = [plainRun []] ∧
    (parseInlineMarkdown ([] : List Char)).length ≠ 0 := by
  constructor <;> decide

/-- C6 (amended): applied to the empty line, the inline run parser returns
    a single plain run (size 20, colour `000000`) whose text is the empty
    string, rather than the empty run sequence. -/
theorem c6_empty_line_single_fallback_run :
    parseInlineMarkdown ([] : List Char) =
      [⟨[], false, false, "000000", some 20⟩] := by
  decide

/-! ### Classifier branch lemmas -/

theorem startsWithL_cons_cons (p c : Char) (ps cs : List Char) :
    startsWithL (p :: ps) (c :: cs) = if p = c then startsWithL ps cs else false := rfl

theorem startsWithL_shape {p : Char} {ps l : List Char}
    (h : startsWithL (p :: ps) l = true) :
    ∃ l', l = p :: l' ∧ startsWithL ps l' = true := by
  cases l with
  | nil => simp [startsWithL] at h
  | cons c cs =>
    by_cases hp : p = c
    · subst hp
      rw [startsWithL_cons_cons, if_pos rfl] at h
      exact ⟨cs, rfl, h⟩
    · rw [startsWithL_cons_cons, if_neg hp] at h
      cases h

theorem numberedMatch_head {t ds content : List Char}
    (h : numberedMatch t = some (ds, content)) :
    ∃ d t', t = d :: t' ∧ d.isDigit = true := by
  cases t with
  | nil => simp [numberedMatch] at h
  | cons c cs =>
    by_cases hc : c.isDigit
    · exact ⟨c, cs, rfl, hc⟩
    · exfalso
      simp [numberedMatch, List.takeWhile_cons, hc] at h

theorem lineStepT_h3 (c : Nat) (t2 : List Char) :
    lineStepT c ('#' :: '#' :: '#' :: ' ' :: t2) = (headingPara t2 22 150 80, c) := rfl

theorem lineStepT_h2 (c : Nat) (t2 : List Char) :
    lineStepT c ('#' :: '#' :: ' ' :: t2) = (headingPara t2 24 200 100, c) := rfl

theorem lineStepT_h1 (c : Nat) (t2 : List Char) :
    lineStepT c ('#' :: ' ' :: t2) = (headingPara t2 28 250 120, c) := rfl

theorem lineStepT_dash (c : Nat) (t2 : List Char) :
    (lineStepT c ('-' :: ' ' :: t2)).2 = 0 := rfl

theorem lineStepT_star (c : Nat) (t2 : List Char) :
    (lineStepT c ('*' :: ' ' :: t2)).2 = 0 := rfl

/-- Evaluation of `lineStepT` on a numbered line: the heading and bullet
    guards fail because the line's first character is a digit, so the
    ordered-list branch fires with the incremented counter. -/
theorem lineStepT_ordered {t ds content : List Char} (c : Nat)
    (h : numberedMatch t = some (ds, content)) :
    lineStepT c t =
      (⟨ordMarkerRun (c + 1) :: parseInlineMarkdown content, false,
        some (convertInchesToTwipH 25), none, some 60⟩, c + 1) := by
  obtain ⟨d, t', rfl, hd⟩ := numberedMatch_head h
  have hne : ∀ x : Char, x.isDigit = false → ¬ (x = d) := by
    intro x hx he
    rw [he, hd] at hx
    cases hx
  have hsw : ∀ (p : Char) (ps : List Char), p.isDigit = false →
      startsWithL (p :: ps) (d :: t') = false := by
    intro p ps hp
    rw [startsWithL_cons_cons, if_neg (hne p hp)]
  have h3 : startsWithL "### ".data (d :: t') = false := hsw '#' _ (by decide)
  have h2 : startsWithL "## ".data (d :: t') = false := hsw '#' _ (by decide)
  have h1 : startsWithL "# ".data (d :: t') = false := hsw '#' _ (by decide)
  have hb1 : startsWithL "- ".data (d :: t') = false := hsw '-' _ (by decide)
  have hb2 : startsWithL "* ".data (d :: t') = false := hsw '*' _ (by decide)
  unfold lineStepT
  rw [if_neg (List.cons_ne_nil d t'), h3, h2, h1, hb1, hb2]
  simp only [Bool.false_eq_true, if_false, or_self, h]

/-- C1 counterexample: a blank line, a heading, or a lettered sub-item
    interrupting two ordered items does not restart the numbering — in all
    three inputs the final ordered item renders ordinal `"2. "`, where the
    claim demands a restart at `"1. "`. -/
theorem c1_counterexample :
    blockFirstText (parseMarkdownToParagraphs "1. A\n\n1. B".data) 2 = some "2. ".data ∧
    blockFirstText (parseMarkdownToParagraphs "1. A\n# H\n1. B".data) 2 = some "2. ".data ∧
    blockFirstText (parseMarkdownToParagraphs "1. A\na) x\n1. B".data) 2 = some "2. ".data ∧
    some "2. ".data ≠ some "1. ".data := by
  refine ⟨by decide, by decide, by decide, by decide⟩

/-- C1 (amended): the ordinal of an ordered line is always the compiler's
    own counter plus one — the digits captured from the source line are
    discarded — and the counter is reset to 0 by a bullet line, left
    unchanged by a blank line (likewise by headings and lettered sub-items,
    per the counterexample), and the spec's example `"1. A\n- x\n1. B"`
    still renders its second ordered item with ordinal 1. -/
theorem c1_ordinal_from_counter :
    (∀ (counter : Nat) (line ds content : List Char),
        numberedMatch (trim line) = some (ds, content) →
        lineStep counter line =
          (⟨ordMarkerRun (counter + 1) :: parseInlineMarkdown content, false,
            some (convertInchesToTwipH 25), none, some 60⟩, counter + 1)) ∧
    (∀ (counter : Nat) (line : List Char),
        startsWithL "- ".data (trim line) = true ∨ startsWithL "* ".data (trim line) = true →
        (lineStep counter line).2 = 0) ∧
    (∀ (counter : Nat) (line : List Char),
        trim line = [] → (lineStep counter line).2 = counter) ∧
    blockFirstText (parseMarkdownToParagraphs "1. A\n- x\n1. B".data) 2 = some "1. ".data := by
  refine ⟨?_, ?_, ?_, by decide⟩
  · intro counter line ds content h
    unfold lineStep
    exact lineStepT_ordered counter h
  · intro counter line h
    unfold lineStep
    rcases h with h | h
    · have h' : startsWithL ('-' :: ' ' :: []) (trim line) = true := h
      obtain ⟨l1, he, h2⟩ := startsWithL_shape h'
      obtain ⟨l2, he2, _⟩ := startsWithL_shape h2
      rw [he, he2]
      exact lineStepT_dash counter l2
    · have h' : startsWithL ('*' :: ' ' :: []) (trim line) = true := h
      obtain ⟨l1, he, h2⟩ := startsWithL_shape h'
      obtain ⟨l2, he2, _⟩ := startsWithL_shape h2
      rw [he, he2]
      exact lineStepT_star counter l2
  · intro counter line h
    unfold lineStep
    rw [h]
    rfl

/-- C1 witness: the source line `"5. Hello"` after counter value 7 renders
    ordinal 8 (its own digit 5 is ignored); a bullet resets the counter to
    0; a whitespace-only line leaves the counter at 3. -/
theorem c1_ordinal_from_counter_witness :
    lineStep 7 "5. Hello".data =
      (⟨ordMarkerRun (7 + 1) :: parseInlineMarkdown "Hello".data, false,
        some (convertInchesToTwipH 25), none, some 60⟩, 7 + 1) ∧
    (lineStep 3 "- x".data).2 = 0 ∧
    (lineStep 3 "   ".data).2 = 3 := by
  refine ⟨c1_ordinal_from_counter.1 7 "5. Hello".data "5".data "Hello".data (by decide),
    c1_ordinal_from_counter.2.1 3 "- x".data (Or.inl (by decide)),
    c1_ordinal_from_counter.2.2.1 3 "   ".data (by decide)⟩

/-- C5 counterexample: the two-character line `"# "` starts with `"# "`,
    yet the classifier trims it to `"#"` and renders a plain paragraph,
    not a heading (with no non-whitespace text after the marker the
    trimmed line no longer starts with `"# "`). -/
theorem c5_counterexample :
    startsWithL "# ".data "# ".data = true ∧
    lineStep 0 "# ".data =
      (⟨[⟨['#'], false, false, "000000", some 20⟩], false, none, none, some 80⟩, 0) ∧
    (lineStep 0 "# ".data).1 ≠ headingPara (("# ".data).drop 2) 28 250 120 := by
  refine ⟨by decide, by decide, by decide⟩

/-- C5 (amended): for every line whose whitespace-trimmed form starts with
    `"# "` (likewise `"## "`, `"### "`), the classifier renders the
    corresponding heading — even when the remainder matches the
    ordered-item pattern — and leaves the list counter unchanged; in
    particular `"# 1. Title"` compiles to a Heading1 paragraph whose text
    is `"1. Title"`, never to an ordered item. -/
theorem c5_heading_precedence (counter : Nat) (line : List Char) :
    (startsWithL "### ".data (trim line) = true →
        lineStep counter line = (headingPara ((trim line).drop 4) 22 150 80, counter)) ∧
    (startsWithL "## ".data (trim line) = true →
        lineStep counter line = (headingPara ((trim line).drop 3) 24 200 100, counter)) ∧
    (startsWithL "# ".data (trim line) = true →
        lineStep counter line = (headingPara ((trim line).drop 2) 28 250 120, counter)) ∧
    parseMarkdownToParagraphs "# 1. Title".data = [headingPara "1. Title".data 28 250 120] := by
  refine ⟨?_, ?_, ?_, by decide⟩
  · intro h
    unfold lineStep
    have h' : startsWithL ('#' :: '#' :: '#' :: ' ' :: []) (trim line) = true := h
    obtain ⟨l1, he1, hr1⟩ := startsWithL_shape h'
    obtain ⟨l2, he2, hr2⟩ := startsWithL_shape hr1
    obtain ⟨l3, he3, hr3⟩ := startsWithL_shape hr2
    obtain ⟨l4, he4, _⟩ := startsWithL_shape hr3
    rw [he1, he2, he3, he4]
    exact lineStepT_h3 counter l4
  · intro h
    unfold lineStep
    have h' : startsWithL ('#' :: '#' :: ' ' :: []) (trim line) = true := h
    obtain ⟨l1, he1, hr1⟩ := startsWithL_shape h'
    obtain ⟨l2, he2, hr2⟩ := startsWithL_shape hr1
    obtain ⟨l3, he3, _⟩ := startsWithL_shape hr2
    rw [he1, he2, he3]
    exact lineStepT_h2 counter l3
  · intro h
    unfold lineStep
    have h' : startsWithL ('#' :: ' ' :: []) (trim line) = true := h
    obtain ⟨l1, he1, hr1⟩ := startsWithL_shape h'
    obtain ⟨l2, he2, _⟩ := startsWithL_shape hr1
    rw [he1, he2]
    exact lineStepT_h1 counter l2

/-- C5 witness: `"# 1. Title"` (trimmed form starts with `"# "`) renders
    the Heading1 paragraph with text `"1. Title"`, counter untouched. -/
theorem c5_heading_precedence_witness :
    lineStep 4 "# 1. Title".data = (headingPara "1. Title".data 28 250 120, 4) := by
  have h := (c5_heading_precedence 4 "# 1. Title".data).2.2.1 (by decide)
  exact h.trans (by decide)

/-! ### Candidate selection (C4) -/

theorem keepBetter_keeps (c0 : Cand) (o : Option Cand)
    (h : ∀ y : Cand, o = some y → c0.2.1.length ≤ y.2.1.length) :
    keepBetter (some c0) o = some c0 := by
  cases o with
  | none => rfl
  | some y =>
    have hy := h y rfl
    rw [show keepBetter (some c0) (some y) =
        if y.2.1.length < c0.2.1.length then some y else some c0 from rfl,
      if_neg (Nat.not_lt.mpr hy)]

/-- C4: when the bold `**…**` span is at least as early as every other
    candidate span in the remaining text (in particular, when a bold and an
    italic span tie at the earliest offset), the inline step selects the
    bold span — bold is checked first; and parsing the spec's example line
    `"**bold** and *italic*"` yields exactly the runs bold `"bold"`,
    plain `" and "`, italic `"italic"`. -/
theorem c4_bold_first :
    (∀ (rem before inner rest : List Char),
        findBold '*' rem = some (before, inner, rest) →
        (∀ b i r, findBold '_' rem = some (b, i, r) → before.length ≤ b.length) →
        (∀ b i r, findItal '*' none rem = some (b, i, r) → before.length ≤ b.length) →
        (∀ b i r, findItal '_' none rem = some (b, i, r) → before.length ≤ b.length) →
        inlineStep rem = some (true, before, inner, rest)) ∧
    parseInlineMarkdown "**bold** and *italic*".data =
      [⟨"bold".data, true, false, "000000", some 20⟩,
       ⟨" and ".data, false, false, "000000", some 20⟩,
       ⟨"italic".data, false, true, "000000", some 20⟩] := by
  constructor
  · intro rem before inner rest h1 h2 h3 h4
    have hA : ∀ y : Cand, tagCand true (findBold '_' rem) = some y →
        before.length ≤ y.2.1.length := by
      intro y hy
      cases hfb : findBold '_' rem with
      | none => rw [hfb] at hy; cases hy
      | some m =>
        obtain ⟨b, i, r⟩ := m
        rw [hfb] at hy
        have := Option.some.inj hy
        rw [← this]
        exact h2 b i r hfb
    have hB : ∀ y : Cand, tagCand false (findItal '*' none rem) = some y →
        before.length ≤ y.2.1.length := by
      intro y hy
      cases hfb : findItal '*' none rem with
      | none => rw [hfb] at hy; cases hy
      | some m =>
        obtain ⟨b, i, r⟩ := m
        rw [hfb] at hy
        have := Option.some.inj hy
        rw [← this]
        exact h3 b i r hfb
    have hC : ∀ y : Cand, tagCand false (findItal '_' none rem) = some y →
        before.length ≤ y.2.1.length := by
      intro y hy
      cases hfb : findItal '_' none rem with
      | none => rw [hfb] at hy; cases hy
      | some m =>
        obtain ⟨b, i, r⟩ := m
        rw [hfb] at hy
        have := Option.some.inj hy
        rw [← this]
        exact h4 b i r hfb
    unfold inlineStep
    rw [h1]
    rw [show tagCand true (some (before, inner, rest)) =
        some ((true, before, inner, rest) : Cand) from rfl]
    rw [keepBetter_keeps (true, before, inner, rest) _ hA,
      keepBetter_keeps (true, before, inner, rest) _ hB,
      keepBetter_keeps (true, before, inner, rest) _ hC]
  · decide

/-- C4 witness: on the example line itself the bold-star candidate is the
    earliest (the italic-star span starts 13 characters later and the
    underscore matchers find nothing), so the step selects the bold span. -/
theorem c4_bold_first_witness :
    inlineStep "**bold** and *italic*".data =
      some (true, [], "bold".data, " and *italic*".data) := by
  refine c4_bold_first.1 "**bold** and *italic*".data [] "bold".data " and *italic*".data
    (by decide) ?_ ?_ ?_
  · intro b i r hb
    rw [show findBold '_' "**bold** and *italic*".data = none from by decide] at hb
    cases hb
  · intro b i r hb
    rw [show findItal '*' none "**bold** and *italic*".data =
        some ("**bold** and ".data, "italic".data, ([] : List Char)) from by decide] at hb
    have hb1 : "**bold** and ".data = b := congrArg (fun p => p.1) (Option.some.inj hb)
    rw [← hb1]
    decide
  · intro b i r hb
    rw [show findItal '_' none "**bold** and *italic*".data = none from by decide] at hb
    cases hb

/-! ### Attachments (C7) -/

theorem attParasFrom_getElem? (l : List Attachment) :
    ∀ (n i : Nat), (attParasFrom n l)[i]? = (l[i]?).map (fun a => attPara (n + i) a) := by
  induction l with
  | nil => intro n i; simp [attParasFrom]
  | cons a as ih =>
    intro n i
    cases i with
    | zero => simp [attParasFrom]
    | succ j =>
      simp only [attParasFrom, List.getElem?_cons_succ, ih (n + 1) j]
      have harith : n + 1 + j = n + (j + 1) := by omega
      rw [harith]

/-- C7: the empty attachment list renders the single italic muted
    `'No attachments'` placeholder; a present `i`-th attachment (0-based
    index `i`) renders the line `"<i+1>. "` followed by its `nameOrLink`
    when nonempty — otherwise `"Attachment <i+1>"` — followed by
    `" — <description>"` exactly when the description is nonempty. -/
theorem c7_attachment_lines :
    attachmentParagraphs [] = [noAttachmentsPara] ∧
    (∀ (atts : List Attachment) (i : Nat) (att : Attachment),
        atts[i]? = some att →
        ((attachmentParagraphs atts)[i]?).map paraText =
          some ((Nat.repr (i + 1)).data ++ ". ".data
            ++ (if att.nameOrLink = [] then "Attachment ".data ++ (Nat.repr (i + 1)).data
                else att.nameOrLink)
            ++ (if att.description = [] then []
                else " — ".data ++ att.description))) := by
  refine ⟨rfl, ?_⟩
  intro atts i att h
  have hlen : atts.length > 0 := by
    rcases atts with _ | ⟨a, as⟩
    · simp at h
    · simp
  unfold attachmentParagraphs
  rw [if_pos hlen, attParasFrom_getElem?, h]
  simp only [Option.map_some', Option.some.injEq, Nat.zero_add]
  by_cases hn : att.nameOrLink = [] <;> by_cases hd : att.description = [] <;>
    simp [paraText, attPara, hn, hd, List.append_assoc]

/-- C7 witness: the spec's example list — an unnamed attachment described
    `"log"` and a named one with no description — renders the lines
    `"1. Attachment 1 — log"` and `"2. Screenshot"`. -/
theorem c7_attachment_lines_witness :
    ((attachmentParagraphs
        [⟨"a1".data, [], "log".data⟩, ⟨"a2".data, "Screenshot".data, []⟩])[0]?).map paraText
      = some "1. Attachment 1 — log".data ∧
    ((attachmentParagraphs
        [⟨"a1".data, [], "log".data⟩, ⟨"a2".data, "Screenshot".data, []⟩])[1]?).map paraText
      = some "2. Screenshot".data := by
  refine ⟨(c7_attachment_lines.2 _ 0 ⟨"a1".data, [], "log".data⟩ (by decide)).trans (by decide),
    (c7_attachment_lines.2 _ 1 ⟨"a2".data, "Screenshot".data, []⟩ (by decide)).trans (by decide)⟩

/-! ### Impact line (C8) -/

theorem impactList_ne_nil {cats : List (List Char)} (others : List Char)
    (hne : cats ≠ []) (hmem : ∀ c ∈ cats, c ∈ IMPACT_CATEGORIES) :
    impactList cats others ≠ [] := by
  rcases cats with _ | ⟨c, rest⟩
  · exact absurd rfl hne
  · rcases rest with _ | ⟨c2, rest2⟩
    · have hc : c ∈ IMPACT_CATEGORIES := hmem c (by simp)
      show expandCat others c ≠ []
      unfold expandCat
      by_cases he : c = "Others".data ∧ others ≠ []
      · rw [if_pos he]
        simp
      · rw [if_neg he]
        fin_cases hc <;> decide
    · show expandCat others c ++ ", ".data ++
        joinComma (expandCat others c2 :: rest2.map (expandCat others)) ≠ []
      intro hc0
      have hlen := congrArg List.length hc0
      simp only [List.length_append, List.length_nil, List.length_cons] at hlen
      omega

/-- C8: for every selection of categories from the form's fixed list, the
    Impact box's first line is the bold `"Impacted Parties: "` label
    followed by the comma-joined category list with `Others` expanded to
    `"Others (<free-text>)"` exactly when the free text is nonempty
    (`expandCat`/`impactList`); an empty selection instead renders
    `"None selected"` in muted italics. -/
theorem c8_impact_line (cats : List (List Char)) (others : List Char)
    (hmem : ∀ c ∈ cats, c ∈ IMPACT_CATEGORIES) :
    (cats = [] → impactLineRuns cats others =
       [⟨"Impacted Parties: ".data, true, false, "000000", some 20⟩,
        ⟨"None selected".data, false, true, "9ca3af", some 20⟩]) ∧
    (cats ≠ [] → impactLineRuns cats others =
       [⟨"Impacted Parties: ".data, true, false, "000000", some 20⟩,
        ⟨impactList cats others, false, false, "000000", some 20⟩]) := by
  constructor
  · intro h
    subst h
    rfl
  · intro h
    have hil := impactList_ne_nil others h hmem
    have hie : (impactList cats others).isEmpty = false := by
      simpa [List.isEmpty_iff] using hil
    unfold impactLineRuns
    rw [if_neg hil, if_neg hil, hie]

/-- C8 witness: the selection `["Others"]` with free text `"Vendor"`
    renders `"Impacted Parties: Others (Vendor)"`, and the empty selection
    renders the muted italic `"None selected"`. -/
theorem c8_impact_line_witness :
    impactLineRuns ["Others".data] "Vendor".data =
      [⟨"Impacted Parties: ".data, true, false, "000000", some 20⟩,
       ⟨"Others (Vendor)".data, false, false, "000000", some 20⟩] ∧
    impactLineRuns [] "".data =
      [⟨"Impacted Parties: ".data, true, false, "000000", some 20⟩,
       ⟨"None selected".data, false, true, "9ca3af", some 20⟩] := by
  refine ⟨((c8_impact_line ["Others".data] "Vendor".data (by decide)).2
      (by decide)).trans (by decide),
    (c8_impact_line [] "".data (by decide)).1 rfl⟩

/-! ### Date formatting (C9) -/

theorem take_ne_imp_ne {α : Type} (n : Nat) {a b : List α}
    (h : a.take n ≠ b.take n) : a ≠ b :=
  fun hab => h (by rw [hab])

theorem monthName_ne_notspec {m : Nat} (h1 : 1 ≤ m) (h2 : m ≤ 12) (X : List Char) :
    monthName m ++ X ≠ "Not specified".data := by
  apply take_ne_imp_ne 3
  interval_cases m <;>
    (rw [List.take_append_of_le_length (by decide)]; decide)

theorem parseIsoDate_bounds {s : List Char} {y m d : Nat}
    (h : parseIsoDate s = some (y, m, d)) : 1 ≤ m ∧ m ≤ 12 := by
  unfold parseIsoDate at h
  split at h
  · split_ifs at h with hdig hbound
    · have h' := Option.some.inj h
      simp only [Prod.mk.injEq] at h'
      obtain ⟨-, hm, -⟩ := h'
      rw [← hm]
      exact ⟨hbound.1, hbound.2.1⟩
  · cases h

theorem parseIsoDateTime_bounds {s : List Char} {y m d hh mi : Nat}
    (h : parseIsoDateTime s = some (y, m, d, hh, mi)) : 1 ≤ m ∧ m ≤ 12 := by
  unfold parseIsoDateTime at h
  split at h
  · split_ifs at h with hdig hbound
    · rename_i yv mv dv heqd heqs
      have h' := Option.some.inj h
      simp only [Prod.mk.injEq] at h'
      obtain ⟨-, hm, -⟩ := h'
      have hb := parseIsoDate_bounds heqd
      rw [← hm]
      exact hb
  · cases h

/-- C9 counterexample: on the datetime `"2024-03-15T14:30"` the code's
    `en-US` rendering joins the date and the time with a separator
    (`" at "` under current CLDR data, `", "` under older ICU), so the
    output is not the claim's plain-space `"March 15, 2024 2:30 PM"`. -/
theorem c9_counterexample :
    formatDateTime "2024-03-15T14:30".data = "March 15, 2024 at 2:30 PM".data ∧
    formatDateTime "2024-03-15T14:30".data ≠ "March 15, 2024 2:30 PM".data := by
  refine ⟨by decide, by decide⟩

/-- C9 (amended): `formatDate` and `formatDateTime` return
    `"Not specified"` exactly when the input is empty; a well-formed
    date-only input renders as `"<Month> <Day>, <Year>"` (e.g.
    `"2024-03-15"` → `"March 15, 2024"`), and a well-formed datetime input
    renders as `"<Month> <Day>, <Year> at <H>:<MM> <AM|PM>"` — with the
    locale's separator between the date and time parts, which the original
    claim omitted. -/
theorem c9_date_formatting :
    formatDate [] = "Not specified".data ∧
    formatDate "2024-03-15".data = "March 15, 2024".data ∧
    (∀ s : List Char, s ≠ [] → formatDate s ≠ "Not specified".data) ∧
    formatDateTime [] = "Not specified".data ∧
    formatDateTime "2024-03-15T14:30".data = "March 15, 2024 at 2:30 PM".data ∧
    (∀ s : List Char, s ≠ [] → formatDateTime s ≠ "Not specified".data) := by
  refine ⟨rfl, by decide, ?_, rfl, by decide, ?_⟩
  · intro s hs
    unfold formatDate
    rw [if_neg hs]
    cases hp : parseIsoDate s with
    | none => decide
    | some v =>
      obtain ⟨yv, mv, dv⟩ := v
      have hb := parseIsoDate_bounds hp
      show renderDateYMD yv mv dv ≠ "Not specified".data
      unfold renderDateYMD
      simp only [List.append_assoc]
      exact monthName_ne_notspec hb.1 hb.2 _
  · intro s hs
    unfold formatDateTime
    rw [if_neg hs]
    cases hp : parseIsoDateTime s with
    | none => decide
    | some v =>
      obtain ⟨yv, mv, dv, hv, miv⟩ := v
      have hb := parseIsoDateTime_bounds hp
      show renderDateYMD yv mv dv ++ " at ".data ++ renderTime12 hv miv ≠
        "Not specified".data
      unfold renderDateYMD
      simp only [List.append_assoc]
      exact monthName_ne_notspec hb.1 hb.2 _

/-- C9 witness: a nonempty (even malformed) input never yields
    `"Not specified"` from either formatter. -/
theorem c9_date_formatting_witness :
    formatDate "x".data ≠ "Not specified".data ∧
    formatDateTime "x".data ≠ "Not specified".data := by
  refine ⟨c9_date_formatting.2.2.1 "x".data (by decide),
    c9_date_formatting.2.2.2.2.2 "x".data (by decide)⟩

end IncidentDocx
